import Mathlib

/-!
Verification of the Trimphone client session engine against its
natural-language specification.

The definitions below are a shallow embedding of the TypeScript source:

* `src/src/utils.ts`  — `isValidAddress`
* `src/src/call.ts`   — the `Call` state machine (`answer`, `hangup`,
  `receiveHangup`, `send`, `inferContentType`)
* `src/src/trimphone.ts` — the `Trimphone` session engine
  (`register`, `dial`, `handleConnected`, `handleBusy`,
  `handleTransportClose`, `dequeuePendingDial`, `scheduleReconnect`,
  the connect-open handler of `ensureConnected`, and the
  `createCallController` send path)
* `src/src/types.ts`  — `DialOptions`, frame shapes.

JavaScript strings are modelled as Lean `String` (with `String.data` for
character-level reasoning); byte buffers (`Buffer` / `Uint8Array` /
`ArrayBuffer` — the engine treats all three identically in the modelled
paths, base64-encoding their bytes) as `List Nat` of byte values; JSON
values as the inductive `Jx`.  Promise settlement and event emission are
modelled as explicit effect lists produced by each step function, in the
order the source produces them.  Thrown exceptions are modelled with
`Except String` carrying the exact `Error` message thrown by the source;
an `Except.error` result means the source function threw before mutating
any state, which is faithful because every modelled `throw` is the first
statement of the corresponding source function.
-/

namespace Trimphone

/-- Characters of a JS string (model of `address.split(sep)` for a
single-character separator, below). -/
abbrev JSChars := List Char

/-- Model of JavaScript `String.prototype.split` with a single-character
separator, on the character list of the string: `"a@b".split("@")` is
`[['a'],['b']]`, `"".split("@")` is `[[]]`, `"@@".split("@")` is
`[[],[],[]]`. -/
def jsSplitChar (sep : Char) : JSChars → List JSChars
  | [] => [[]]
  | c :: rest =>
    let r := jsSplitChar sep rest
    if c = sep then [] :: r
    else
      match r with
      | [] => [[c]]
      | h :: t => (c :: h) :: t

/-- `isValidAddress` from `src/src/utils.ts` (via `src/unnamed/part_004`):
reject the empty string (`!address`), require `split("@")` to yield
exactly two parts, both non-empty (`!local`, `!domain` falsiness checks),
and the domain to contain a `.`. -/
def isValidAddress (address : String) : Bool :=
  if address.data = [] then false
  else
    match jsSplitChar '@' address.data with
    | [loc, domain] =>
      if loc = [] then false
      else if domain = [] then false
      else domain.contains '.'
    | _ => false

/-- The specification's address shape (spec §3, «String of the form
`local@domain` where `local` is non-empty, `domain` is non-empty and
contains at least one `.`»): there is a decomposition of the string at a
unique `@` into a non-empty local part and a non-empty domain part
containing a dot. -/
def ValidAddressSpec (address : String) : Prop :=
  ∃ l d : JSChars,
    address.data = l ++ '@' :: d ∧ l ≠ [] ∧ d ≠ [] ∧
    '@' ∉ l ∧ '@' ∉ d ∧ '.' ∈ d

/-- Wire content types of `MessagePayload` / `MSG` frames
(`src/src/types.ts`: `"text" | "json" | "binary"`). -/
inductive ContentType where
  | text
  | json
  | binary
deriving DecidableEq, Repr

/-- The string that a `ContentType` serializes to in the `content_type`
field of a `MSG` frame. -/
def contentTypeWire : ContentType → String
  | .text => "text"
  | .json => "json"
  | .binary => "binary"

/-- JSON values, used for metadata objects and for plain (non-buffer)
JavaScript objects handed to `call.send`. -/
inductive Jx where
  | jnull
  | jbool (b : Bool)
  | jnum (n : Int)
  | jstr (s : String)
  | jarr (xs : List Jx)
  | jobj (fields : List (String × Jx))

/-- JSON string escaping for `JSON.stringify` (the claims never depend on
escaping of exotic characters; quotes, backslashes and newlines are the
escapes exercised). -/
def jsonEscapeChar (c : Char) : String :=
  if c = '"' then "\\\""
  else if c = '\\' then "\\\\"
  else if c = '\n' then "\\n"
  else String.singleton c

/-- Quote a string as a JSON string literal. -/
def jsonQuote (s : String) : String :=
  "\"" ++ String.join (s.data.map jsonEscapeChar) ++ "\""

mutual

/-- `JSON.stringify` on `Jx` values. -/
def jxToString : Jx → String
  | .jnull => "null"
  | .jbool true => "true"
  | .jbool false => "false"
  | .jnum n => toString n
  | .jstr s => jsonQuote s
  | .jarr xs => "[" ++ jxArrToString xs ++ "]"
  | .jobj fs => "\x7b" ++ jxObjToString fs ++ "\x7d"

/-- Comma-separated serialization of a JSON array's elements. -/
def jxArrToString : List Jx → String
  | [] => ""
  | [x] => jxToString x
  | x :: y :: rest => jxToString x ++ "," ++ jxArrToString (y :: rest)

/-- Comma-separated serialization of a JSON object's fields. -/
def jxObjToString : List (String × Jx) → String
  | [] => ""
  | [(k, v)] => jsonQuote k ++ ":" ++ jxToString v
  | (k, v) :: p :: rest =>
    jsonQuote k ++ ":" ++ jxToString v ++ "," ++ jxObjToString (p :: rest)

end

/-- The base64 alphabet (standard, RFC 4648). -/
def b64Chars : JSChars :=
  "ABCDEFGHIJKLMNOPQRSTUVWXYZabcdefghijklmnopqrstuvwxyz0123456789+/".data

/-- Character of the base64 alphabet at index `n < 64`. -/
def b64At (n : Nat) : Char := b64Chars.getD n 'A'

/-- `encodeBase64` from `src/src/trimphone.ts`: encode a byte sequence as
a base64 string with `=` padding.  Bytes are taken mod 256 (the source
operates on `Uint8Array` contents, which are bytes by construction). -/
def encodeBase64 : List Nat → String
  | [] => ""
  | [a] =>
    let a := a % 256
    String.mk [b64At (a / 4), b64At ((a % 4) * 16), '=', '=']
  | [a, b] =>
    let a := a % 256
    let b := b % 256
    String.mk [b64At (a / 4), b64At ((a % 4) * 16 + b / 16), b64At ((b % 16) * 4), '=']
  | a :: b :: c :: rest =>
    let a' := a % 256
    let b' := b % 256
    let c' := c % 256
    String.mk [b64At (a' / 4), b64At ((a' % 4) * 16 + b' / 16),
      b64At ((b' % 16) * 4 + c' / 64), b64At (c' % 64)] ++ encodeBase64 rest

/-- JavaScript values that can appear as a message payload or as `MSG`
frame data.  `vbuf` models `Buffer`, `Uint8Array` and `ArrayBuffer`
uniformly as a byte list: the engine treats all three identically on the
modelled paths (it base64-encodes their bytes). -/
inductive JSValue where
  | vstr (s : String)
  | vnum (n : Int)
  | vbool (b : Bool)
  | vnull
  | vundef
  | vbuf (bytes : List Nat)
  | vobj (o : Jx)

/-- `JSON.stringify` on a `JSValue`.  Only the `vobj` case is reachable
from the claims' paths (the engine stringifies exactly when the content
type is `json` and the data is not a string); the `vbuf` case models
`Buffer.prototype.toJSON`'s shape. -/
def jsStringify : JSValue → String
  | .vstr s => jsonQuote s
  | .vnum n => toString n
  | .vbool true => "true"
  | .vbool false => "false"
  | .vnull => "null"
  | .vundef => "undefined"
  | .vbuf bytes =>
    jxToString (.jobj [("type", .jstr "Buffer"),
      ("data", .jarr (bytes.map (fun b => .jnum (Int.ofNat (b % 256)))))])
  | .vobj o => jxToString o

/-- Call direction (`src/src/call.ts`). -/
inductive CallDirection where
  | inbound
  | outbound
deriving DecidableEq, Repr

/-- Call state (`src/src/call.ts`: `"pending" | "ringing" | "active" |
"ended"`). -/
inductive CallState where
  | pending
  | ringing
  | active
  | ended
deriving DecidableEq, Repr

/-- The observable fields of a `Call` object (`src/src/call.ts`).
`metadata` is carried but never inspected by the modelled operations. -/
structure CallRec where
  id : String
  fromAddr : Option String
  toAddr : Option String
  metadata : Option Jx
  direction : CallDirection
  state : CallState

/-- Outbound frames handed to `transport.send` (after JSON encoding),
as built by the engine (`src/src/types.ts`, `SystemXOutboundMessage`).
Registration options other than the address, which the engine forwards
opaquely and no claim mentions, are not carried. -/
inductive Frame where
  | register (address : String)
  | unregister
  | heartbeat
  | dial (toAddr : String) (metadata : Option Jx)
  | answer (callId : String)
  | hangup (callId : String) (reason : Option String)
  | msg (callId : String) (data : JSValue) (contentType : ContentType)

/-- Settlement of a caller-held promise.  `caller` identifies the
deferred handed out by `dial` or `register`; the `String` of a rejection
is the exact `Error` message the source constructs. -/
inductive Settle where
  | dialResolved (caller : Nat) (callId : String)
  | dialRejected (caller : Nat) (errMsg : String)
  | registerResolved (caller : Nat)
  | registerRejected (caller : Nat) (errMsg : String)
deriving DecidableEq, Repr

/-- User-visible events emitted by the engine or by a `Call`. -/
inductive EvtOut where
  | connectedEvt
  | disconnectedEvt (code : Nat) (reason : Option String)
  | registeredEvt (address : String)
  | registrationFailedEvt (reason : String)
  | ringEvt (callId : String)
  | callConnected (callId : String)
  | callHangupEvt (callId : String) (reason : Option String)
  | heartbeatAckEvt
deriving DecidableEq, Repr

/-- One element of the ordered effect trace a step produces: a frame put
on the transport, a promise settlement, or an emitted event. -/
inductive Eff where
  | frame (f : Frame)
  | settle (s : Settle)
  | evt (e : EvtOut)

/-- A `MessagePayload` (`src/src/types.ts`): optional content type plus
data. -/
structure MessagePayload where
  contentType : Option ContentType
  data : JSValue

/-- `inferContentType` from `src/src/call.ts`: byte buffers are
`binary`; any other non-null object is `json`; everything else
(strings, numbers, booleans, `null`, `undefined`) is `text`.
(`typeof null` is `"object"` but the source excludes `null`
explicitly.) -/
def inferContentType : JSValue → ContentType
  | .vbuf _ => .binary
  | .vobj _ => .json
  | _ => .text

/-- The `sendMessage` closure of `Trimphone.createCallController`
(`src/src/trimphone.ts` lines 527–551): default the content type to
`text`; for `json` with non-string data, `JSON.stringify` it; for
`binary`, base64-encode a byte buffer and throw on anything else;
then build the `MSG` frame. -/
def sendMessage (callId : String) (payload : MessagePayload) :
    Except String Frame :=
  let contentType := payload.contentType.getD .text
  match contentType with
  | .json =>
    match payload.data with
    | .vstr s => .ok (.msg callId (.vstr s) .json)
    | d => .ok (.msg callId (.vstr (jsStringify d)) .json)
  | .binary =>
    match payload.data with
    | .vbuf bytes => .ok (.msg callId (.vstr (encodeBase64 bytes)) .binary)
    | _ => .error "Binary payload must be Buffer, Uint8Array, or ArrayBuffer"
  | .text => .ok (.msg callId payload.data .text)

/-- `Call.send` (`src/src/call.ts` lines 87–93) composed with the
controller's `sendMessage`: reject on a non-active call, infer the
content type when none is given, and hand the payload to the
controller. -/
def callSend (c : CallRec) (message : JSValue) (ct? : Option ContentType) :
    Except String Frame :=
  if c.state ≠ .active then .error "Cannot send message on inactive call"
  else sendMessage c.id ⟨some (ct?.getD (inferContentType message)), message⟩

/-- `Call.answer` (`src/src/call.ts` lines 69–78) composed with the
controller's `answer` (which sends the `ANSWER` frame): throws unless
the call is inbound and ringing; otherwise sends `ANSWER` and sets the
state to `active`.  An `Except.error` result models the source throwing
before any mutation. -/
def callAnswer (c : CallRec) : Except String (CallRec × List Eff) :=
  if c.direction ≠ .inbound then .error "Only inbound calls can be answered"
  else if c.state ≠ .ringing then .error "Call is not ringing"
  else .ok ({c with state := .active}, [.frame (.answer c.id)])

/-- `Call.hangup` (`src/src/call.ts` lines 80–85) composed with the
controller's `hangup` (`src/src/trimphone.ts` lines 575–578, which
closes any tunnel stream and sends the `HANGUP` frame): a no-op when the
call is already `ended`; otherwise it sends `HANGUP`.  Note the source
does NOT change `this.state` here — the state reaches `ended` only via
`receiveHangup`. -/
def callHangup (c : CallRec) (reason : Option String) : CallRec × List Eff :=
  if c.state = .ended then (c, [])
  else (c, [.frame (.hangup c.id reason)])

/-- `Call.receiveHangup` (`src/src/call.ts` lines 300–306): a no-op when
already `ended`; otherwise transition to `ended` and emit the call's
`hangup` event. -/
def receiveHangup (c : CallRec) (reason : Option String) : CallRec × List Eff :=
  if c.state = .ended then (c, [])
  else ({c with state := .ended}, [.evt (.callHangupEvt c.id reason)])

/-- The spec's illegal-state error kind (§7): the messages thrown by
call operations invoked against the wrong call state or direction. -/
def IllegalStateMsg (m : String) : Prop :=
  m = "Only inbound calls can be answered" ∨
  m = "Call is not ringing" ∨
  m = "Cannot send message on inactive call"

/-- Engine connection state (`src/src/trimphone.ts` line 20). -/
inductive ConnectionState where
  | disconnected
  | connecting
  | connected
deriving DecidableEq, Repr

/-- A pending dial FIFO entry (`src/src/trimphone.ts` lines 27–31):
destination, optional metadata, and the caller's deferred (identified
here by a number). -/
structure PendingDial where
  toAddr : String
  metadata : Option Jx
  callerId : Nat

/-- `DialOptions` (`src/src/types.ts` via `src/unnamed/part_000` lines
28–31): optional metadata and an optional operation timeout. -/
structure DialOptions where
  metadata : Option Jx
  timeoutMs : Option Nat

/-- The engine-state fields of the `Trimphone` class that the claims
touch.  The calls table models the insertion-ordered `Map<string, Call>`
as an association list; the streams map, timers, transport handle and
session id are not carried (no claim inspects them). -/
structure EngineState where
  connectionState : ConnectionState
  registeredAddress : Option String
  registerOnConnect : Bool
  registerDeferred : Option (List Nat)
  pendingDials : List PendingDial
  calls : List (String × CallRec)
  heartbeatIntervalMs : Nat
  baseReconnectBackoffMs : Nat
  maxReconnectBackoffMs : Nat
  currentReconnectDelay : Nat
  autoReconnect : Bool
  shouldAttemptReconnect : Bool
  manualCloseRequested : Bool

/-- JavaScript `Array.prototype.findIndex`: the index of the first
element satisfying the predicate, or `-1`. -/
def jsFindIndex (p : α → Bool) : List α → Int
  | [] => -1
  | a :: rest =>
    if p a then 0
    else
      let r := jsFindIndex p rest
      if r = -1 then -1 else r + 1

/-- `Trimphone.dequeuePendingDial` (`src/src/trimphone.ts` lines
515–524): when `to` is absent (or the empty string — JavaScript
falsiness), shift the oldest entry; otherwise find the first entry whose
destination equals `to` and splice it out, shifting the oldest entry
when no destination matches. -/
def dequeuePendingDial (to? : Option String) (pds : List PendingDial) :
    Option PendingDial × List PendingDial :=
  match to? with
  | none => (pds.head?, pds.tail)
  | some t =>
    if t = "" then (pds.head?, pds.tail)
    else
      let i := jsFindIndex (fun pd => pd.toAddr = t) pds
      if i = -1 then (pds.head?, pds.tail)
      else (pds.get? i.toNat, pds.eraseIdx i.toNat)

/-- The dequeue rule C4 ascribes to `dequeuePendingDial`: with a
destination, the first pending dial whose destination equals it is
removed, falling back to the oldest entry when no destination matches;
without a destination, the oldest entry is removed. -/
def DequeueSpec (to? : Option String) (pds : List PendingDial)
    (pd : PendingDial) (rest : List PendingDial) : Prop :=
  match to? with
  | none => pds = pd :: rest
  | some t =>
    (∃ pre post, pds = pre ++ pd :: post ∧ pd.toAddr = t ∧
      (∀ q ∈ pre, q.toAddr ≠ t) ∧ rest = pre ++ post) ∨
    ((∀ q ∈ pds, q.toAddr ≠ t) ∧ pds = pd :: rest)

/-- `Map.prototype.get` on the calls table: the value of the first entry
with the given key. -/
def mapLookup (k : String) : List (String × CallRec) → Option CallRec
  | [] => none
  | (k', v) :: rest => if k' = k then some v else mapLookup k rest

/-- `Map.prototype.set` on the calls table: overwrite in place when the
key is present, else append. -/
def mapSet (k : String) (v : CallRec) (m : List (String × CallRec)) :
    List (String × CallRec) :=
  if m.any (fun p => p.1 = k) then
    m.map (fun p => if p.1 = k then (k, v) else p)
  else m ++ [(k, v)]

/-- `call.setConnected()` observed through the calls table: the `Call`
object stored under `callId` is mutated in place to state `active`
(`src/src/call.ts` lines 288–292). -/
def setCallActive (callId : String) (s : EngineState) : EngineState :=
  {s with calls := (s.calls.map
    (fun p => if p.1 = callId then (p.1, {p.2 with state := .active}) else p))}

/-- `Trimphone.handleConnected` (`src/src/trimphone.ts` lines 449–468):
if a call with the frame's id exists, transition it to `active`
(emitting its `connected` event); otherwise dequeue a pending dial
(returning silently when none is pending), construct an outbound `Call`
in state `pending`, insert it, resolve the dial's promise with it, and
then transition it to `active`. -/
def handleConnected (callId : String) (to? fromA? : Option String)
    (meta : Option Jx) (s : EngineState) : EngineState × List Eff :=
  match mapLookup callId s.calls with
  | some _ => (setCallActive callId s, [.evt (.callConnected callId)])
  | none =>
    match dequeuePendingDial to? s.pendingDials with
    | (none, _) => (s, [])
    | (some pd, rest) =>
      let call : CallRec :=
        { id := callId, toAddr := to?, fromAddr := fromA?, metadata := meta,
          direction := .outbound, state := .pending }
      let s1 := {s with calls := mapSet callId call s.calls, pendingDials := rest}
      (setCallActive callId s1,
       [.settle (.dialResolved pd.callerId callId), .evt (.callConnected callId)])

/-- `Trimphone.handleBusy` (`src/src/trimphone.ts` lines 470–475):
dequeue the matching pending dial and reject it with the frame's
reason. -/
def handleBusy (toA reason : String) (s : EngineState) : EngineState × List Eff :=
  match dequeuePendingDial (some toA) s.pendingDials with
  | (none, _) => (s, [])
  | (some pd, rest) =>
    ({s with pendingDials := rest},
     [.settle (.dialRejected pd.callerId ("Call failed: " ++ reason))])

/-- `Trimphone.handleIncomingRing` (`src/src/trimphone.ts` lines
435–447): construct an inbound call in state `ringing`, insert it into
the calls table, and emit `ring`. -/
def handleIncomingRing (callId fromA : String) (meta : Option Jx)
    (s : EngineState) : EngineState × List Eff :=
  let call : CallRec :=
    { id := callId, toAddr := none, fromAddr := some fromA, metadata := meta,
      direction := .inbound, state := .ringing }
  ({s with calls := mapSet callId call s.calls}, [.evt (.ringEvt callId)])

/-- `Trimphone.handleTransportClose` (`src/src/trimphone.ts` lines
312–349): ignore the close when already disconnected; otherwise go to
`disconnected`, reject a pending registration with *Disconnected*, drain
the pending-dial FIFO rejecting each entry with *Disconnected*, deliver a
local hangup to every live call and clear the table, and emit
`disconnected`.  (Heartbeat-timer clearing, stream teardown and
reconnect scheduling have no footprint in the modelled state.) -/
def handleTransportClose (code : Nat) (reason : Option String)
    (s : EngineState) : EngineState × List Eff :=
  if s.connectionState = .disconnected then (s, [])
  else
    let regSettles : List Eff :=
      match s.registerDeferred with
      | some callers => callers.map (fun c => .settle (.registerRejected c "Disconnected"))
      | none => []
    let dialSettles : List Eff :=
      s.pendingDials.map (fun pd => .settle (.dialRejected pd.callerId "Disconnected"))
    let hangups : List Eff :=
      s.calls.filterMap (fun p =>
        if p.2.state = .ended then none
        else some (.evt (.callHangupEvt p.1 (some "disconnected"))))
    ({s with connectionState := .disconnected, registerDeferred := none,
             pendingDials := [], calls := []},
     regSettles ++ dialSettles ++ hangups ++ [.evt (.disconnectedEvt code reason)])

/-- The synchronous prefix of `Trimphone.register`
(`src/src/trimphone.ts` lines 141–151): validate the address (throwing
`Invalid SystemX address` before any state change), pin it, re-enable
reconnection, and — when disconnected — let `ensureConnected` move the
engine to `connecting`. -/
def registerStart (address : String) (s : EngineState) :
    Except String EngineState :=
  if !(isValidAddress address) then .error "Invalid SystemX address"
  else .ok {s with
    registeredAddress := some address,
    shouldAttemptReconnect := true,
    manualCloseRequested := false,
    connectionState :=
      if s.connectionState = .disconnected then .connecting else s.connectionState}

/-- `Trimphone.dial` (`src/src/trimphone.ts` lines 185–214) in the
connected engine: validate the address (throwing
`Invalid SystemX address` before any state change), append a pending
dial carrying the destination, the options' metadata and the caller's
deferred, and send the `DIAL` frame.  The options' `timeoutMs` field is
never read by the source. -/
def dialStep (toA : String) (opts : DialOptions) (caller : Nat)
    (s : EngineState) : Except String (EngineState × List Eff) :=
  if !(isValidAddress toA) then .error "Invalid SystemX address"
  else .ok
    ({s with shouldAttemptReconnect := true, manualCloseRequested := false,
             pendingDials := s.pendingDials ++ [⟨toA, opts.metadata, caller⟩]},
     [.frame (.dial toA opts.metadata)])

/-- Events of the registration / connection lifecycle, used to replay
the asynchronous interleavings of `register` and `ensureConnected`.
`regStart` is the synchronous prefix of a `register` call (validation
and pinning, before `await ensureConnected`); `regProceed` is the same
caller's continuation after the await (the deferred-creation /
deferred-chaining logic of lines 153–182); `transportOpen` is the
transport's `open` event handled by `ensureConnected`'s `handleOpen`
(lines 270–285); the frame events are the `REGISTERED` /
`REGISTER_FAILED` branches of `handleMessage` (lines 386–399). -/
inductive REvent where
  | regStart (caller : Nat) (address : String)
  | transportOpen
  | regProceed (caller : Nat)
  | frameRegistered
  | frameRegisterFailed (reason : String)

/-- `Trimphone.sendRegisterMessage` (`src/src/trimphone.ts` lines
588–602): a no-op without a pinned address, otherwise the `REGISTER`
frame. -/
def sendRegisterMessage (s : EngineState) : List Eff :=
  match s.registeredAddress with
  | none => []
  | some a => [.frame (.register a)]

/-- One step of the registration / connection lifecycle.

* `regStart`: apply `registerStart`; a validation throw reaches the
  caller synchronously and touches nothing.
* `transportOpen`: only observable while `connecting` (the handler is
  subscribed inside `ensureConnected`); sets `connected`, resets the
  reconnect delay to the base, emits `connected`, starts the heartbeat
  (an immediate `HEARTBEAT` frame when the interval is positive), and —
  when an address is pinned and `registerOnConnect` holds — re-sends
  `REGISTER`.
* `regProceed`: when a registration is in flight, chain this caller onto
  the existing deferred (both then settle together) and send nothing;
  otherwise create the deferred for this caller and send `REGISTER`.
* `frameRegistered`: resolve every chained caller, emit `registered`,
  drop the deferred.
* `frameRegisterFailed`: reject every chained caller with the reason,
  emit `registrationFailed`, drop the deferred. -/
def rstep (s : EngineState) : REvent → EngineState × List Eff
  | .regStart _ address =>
    match registerStart address s with
    | .ok s' => (s', [])
    | .error _ => (s, [])
  | .transportOpen =>
    if s.connectionState = .connecting then
      let s' := {s with connectionState := .connected,
                        currentReconnectDelay := s.baseReconnectBackoffMs}
      let heartbeatEffs : List Eff :=
        if 0 < s.heartbeatIntervalMs then [.frame .heartbeat] else []
      let registerEffs : List Eff :=
        if s.registeredAddress.isSome ∧ s.registerOnConnect then
          sendRegisterMessage s'
        else []
      (s', [.evt .connectedEvt] ++ heartbeatEffs ++ registerEffs)
    else (s, [])
  | .regProceed c =>
    match s.registerDeferred with
    | some l => ({s with registerDeferred := some (l ++ [c])}, [])
    | none => ({s with registerDeferred := some [c]}, sendRegisterMessage s)
  | .frameRegistered =>
    let settles : List Eff :=
      match s.registerDeferred with
      | some callers => callers.map (fun c => .settle (.registerResolved c))
      | none => []
    let regEvt : List Eff :=
      match s.registeredAddress with
      | some a => [.evt (.registeredEvt a)]
      | none => []
    ({s with registerDeferred := none}, settles ++ regEvt)
  | .frameRegisterFailed reason =>
    let settles : List Eff :=
      match s.registerDeferred with
      | some callers =>
        callers.map (fun c => .settle (.registerRejected c ("Registration failed: " ++ reason)))
      | none => []
    ({s with registerDeferred := none},
     settles ++ [.evt (.registrationFailedEvt reason)])

/-- Replay a list of lifecycle events, concatenating their effects in
order. -/
def runTrace (s : EngineState) : List REvent → EngineState × List Eff
  | [] => (s, [])
  | e :: rest =>
    let (s1, eff1) := rstep s e
    let (s2, eff2) := runTrace s1 rest
    (s2, eff1 ++ eff2)

/-- Number of `REGISTER` frames in an effect trace. -/
def registerFrameCount (effs : List Eff) : Nat :=
  (effs.filter (fun e =>
    match e with
    | .frame (.register _) => true
    | _ => false)).length

/-- The settlements contained in an effect trace, in order. -/
def settlesOf (effs : List Eff) : List Settle :=
  effs.filterMap (fun e =>
    match e with
    | .settle st => some st
    | _ => none)

/-- The dial settlements (resolutions and rejections) contained in an
effect trace, in order. -/
def dialSettlesOf (effs : List Eff) : List Settle :=
  effs.filterMap (fun e =>
    match e with
    | .settle (.dialResolved c cid) => some (.dialResolved c cid)
    | .settle (.dialRejected c m) => some (.dialRejected c m)
    | _ => none)

/-- The callers whose `regProceed` continuation occurs in an event list,
in order. -/
def proceedCallers : List REvent → List Nat
  | [] => []
  | .regProceed c :: rest => c :: proceedCallers rest
  | _ :: rest => proceedCallers rest

/-- `true` for the events a batch of concurrent `register` calls for
address `a` can contribute while the engine is already connected: the
synchronous prefix of a call, or a caller's post-await continuation. -/
def isRegEvent (a : String) : REvent → Bool
  | .regStart _ a' => a' = a
  | .regProceed _ => true
  | _ => false

/-- The backoff update of a failed reconnect attempt
(`Trimphone.scheduleReconnect`, `src/src/trimphone.ts` lines 616–621):
`currentReconnectDelay := min(currentReconnectDelay * 2,
maxReconnectBackoffMs)`. -/
def onReconnectAttemptFailed (s : EngineState) : EngineState :=
  {s with currentReconnectDelay :=
    (min (s.currentReconnectDelay * 2) s.maxReconnectBackoffMs)}

/-- The backoff reset of a successful reconnect attempt
(`Trimphone.scheduleReconnect`, lines 612–615; `handleOpen` performs the
same reset at line 276). -/
def onReconnectAttemptSucceeded (s : EngineState) : EngineState :=
  {s with currentReconnectDelay := s.baseReconnectBackoffMs}

/-- Engine state after `k` consecutive failed reconnect attempts.  The
delay the engine sleeps before attempt `k + 1` is
`(failedAttemptsIter s k).currentReconnectDelay` (`scheduleReconnect`
reads `currentReconnectDelay` when arming the timer, line 609). -/
def failedAttemptsIter (s : EngineState) : Nat → EngineState
  | 0 => s
  | k + 1 => onReconnectAttemptFailed (failedAttemptsIter s k)

/-- A freshly constructed engine with the `DEFAULTS` of
`src/src/trimphone.ts` lines 33–41 (used as a concrete state in
witnesses). -/
def engine0 : EngineState :=
  { connectionState := .disconnected
    registeredAddress := none
    registerOnConnect := true
    registerDeferred := none
    pendingDials := []
    calls := []
    heartbeatIntervalMs := 30000
    baseReconnectBackoffMs := 1000
    maxReconnectBackoffMs := 30000
    currentReconnectDelay := 1000
    autoReconnect := true
    shouldAttemptReconnect := true
    manualCloseRequested := false }

/-- `engine0` after a completed connection (used as a concrete state in
witnesses). -/
def connectedEngine : EngineState :=
  {engine0 with connectionState := .connected}

end Trimphone

namespace Trimphone

theorem jsSplitChar_ne_nil (sep : Char) (s : JSChars) : jsSplitChar sep s ≠ [] := by
  induction s with
  | nil => simp [jsSplitChar]
  | cons c rest ih =>
    simp only [jsSplitChar]
    by_cases h : c = sep
    · simp [h]
    · simp only [h, if_false]
      cases hr : jsSplitChar sep rest with
      | nil => simp
      | cons hd tl => simp

theorem jsSplitChar_single_of (sep : Char) (x : JSChars) (h : sep ∉ x) :
    jsSplitChar sep x = [x] := by
  induction x with
  | nil => rfl
  | cons c rest ih =>
    have hc : ¬ c = sep := fun hcs => h (hcs ▸ List.mem_cons_self c rest)
    have hrest : sep ∉ rest := fun hm => h (List.mem_cons_of_mem _ hm)
    simp only [jsSplitChar, hc, if_false, ih hrest]

theorem jsSplitChar_single_inv (sep : Char) (s x : JSChars)
    (hx : jsSplitChar sep s = [x]) : s = x ∧ sep ∉ x := by
  induction s generalizing x with
  | nil =>
    simp only [jsSplitChar, List.cons.injEq, and_true] at hx
    subst hx
    exact ⟨rfl, by simp⟩
  | cons c rest ih =>
    simp only [jsSplitChar] at hx
    by_cases h : c = sep
    · exfalso
      rw [if_pos h] at hx
      cases hr : jsSplitChar sep rest with
      | nil => exact jsSplitChar_ne_nil sep rest hr
      | cons a b =>
        rw [hr] at hx
        simp at hx
    · rw [if_neg h] at hx
      cases hr : jsSplitChar sep rest with
      | nil => exact absurd hr (jsSplitChar_ne_nil sep rest)
      | cons hd tl =>
        rw [hr] at hx
        simp only [List.cons.injEq, and_true] at hx
        obtain ⟨hx1, hx2⟩ := hx
        subst hx2
        obtain ⟨rfl, hmem⟩ := ih hd hr
        subst hx1
        refine ⟨rfl, fun hc => ?_⟩
        rcases List.mem_cons.mp hc with h1 | h2
        · exact h h1.symm
        · exact hmem h2

theorem jsSplitChar_pair_of (sep : Char) (l d : JSChars)
    (hl : sep ∉ l) (hd : sep ∉ d) :
    jsSplitChar sep (l ++ sep :: d) = [l, d] := by
  induction l with
  | nil =>
    simp [jsSplitChar, jsSplitChar_single_of sep d hd]
  | cons a l' ih =>
    have ha : ¬ a = sep := fun has => hl (has ▸ List.mem_cons_self a l')
    have hl' : sep ∉ l' := fun hm => hl (List.mem_cons_of_mem _ hm)
    have hrec : jsSplitChar sep (List.append l' (sep :: d)) = [l', d] := ih hl'
    simp only [List.cons_append, jsSplitChar, ha, if_false, ih hl', hrec]

theorem jsSplitChar_pair_inv (sep : Char) (s l d : JSChars)
    (hx : jsSplitChar sep s = [l, d]) :
    s = l ++ sep :: d ∧ sep ∉ l ∧ sep ∉ d := by
  induction s generalizing l d with
  | nil => simp [jsSplitChar] at hx
  | cons c rest ih =>
    simp only [jsSplitChar] at hx
    by_cases h : c = sep
    · subst h
      rw [if_pos rfl] at hx
      cases hr : jsSplitChar c rest with
      | nil => exact absurd hr (jsSplitChar_ne_nil c rest)
      | cons a b =>
        rw [hr] at hx
        simp only [List.cons.injEq] at hx
        obtain ⟨hl, ha, hb⟩ := hx
        subst hl
        subst hb
        rw [ha] at hr
        obtain ⟨rfl, hm⟩ := jsSplitChar_single_inv c rest d hr
        exact ⟨rfl, by simp, hm⟩
    · rw [if_neg h] at hx
      cases hr : jsSplitChar sep rest with
      | nil => exact absurd hr (jsSplitChar_ne_nil sep rest)
      | cons hd tl =>
        rw [hr] at hx
        simp only [List.cons.injEq] at hx
        obtain ⟨hl, htl⟩ := hx
        have htl' : tl = [d] := by simpa using htl
        subst htl'
        obtain ⟨rfl, hm1, hm2⟩ := ih hd d hr
        subst hl
        refine ⟨rfl, fun hc => ?_, hm2⟩
        rcases List.mem_cons.mp hc with h1 | h2
        · exact h h1.symm
        · exact hm1 h2

theorem jsSplitChar_eq_pair (sep : Char) (s l d : JSChars) :
    jsSplitChar sep s = [l, d] ↔ (s = l ++ sep :: d ∧ sep ∉ l ∧ sep ∉ d) := by
  constructor
  · exact jsSplitChar_pair_inv sep s l d
  · rintro ⟨rfl, hl, hd⟩
    exact jsSplitChar_pair_of sep l d hl hd

/-- `isValidAddress` decides exactly the spec's address shape. -/
theorem isValidAddress_iff (address : String) :
    isValidAddress address = true ↔ ValidAddressSpec address := by
  constructor
  · intro h
    unfold isValidAddress at h
    split at h
    · exact absurd h (by simp)
    · split at h
      next loc domain heq =>
        split at h
        · exact absurd h (by simp)
        · split at h
          · exact absurd h (by simp)
          · next hloc hdom =>
            obtain ⟨hdec, hal, had⟩ := jsSplitChar_pair_inv '@' address.data loc domain heq
            refine ⟨loc, domain, hdec, hloc, hdom, hal, had, ?_⟩
            simpa using h
      next hne => exact absurd h (by simp)
  · rintro ⟨l, d, heq, hl, hd, hal, had, hdot⟩
    unfold isValidAddress
    have hnil : ¬ address.data = [] := by
      rw [heq]
      cases l <;> simp
    rw [if_neg hnil]
    have hsplit : jsSplitChar '@' address.data = [l, d] := by
      rw [heq]
      exact jsSplitChar_pair_of '@' l d hal had
    rw [hsplit]
    show (if l = [] then false else if d = [] then false else d.contains '.') = true
    rw [if_neg hl, if_neg hd]
    simpa using hdot

/-- C9: `register` and `dial` raise the synchronous
`Invalid SystemX address` error exactly when the string is not of the
form `local@domain` with a non-empty local part and a non-empty domain
part containing at least one `.`; when they raise it, no frame is sent
and no engine state changes (the throw is modelled by the `Except.error`
result, which carries no state mutation and no effects). -/
theorem c9_address_validation (address : String) (s : EngineState)
    (opts : DialOptions) (caller : Nat) :
    (isValidAddress address = true ↔ ValidAddressSpec address) ∧
    (isValidAddress address = false →
      registerStart address s = .error "Invalid SystemX address" ∧
      dialStep address opts caller s = .error "Invalid SystemX address") := by
  refine ⟨isValidAddress_iff address, fun hinv => ⟨?_, ?_⟩⟩
  · unfold registerStart
    rw [hinv]
    rfl
  · unfold dialStep
    rw [hinv]
    rfl

/-- Witness for C9 at the concrete invalid address `"nodomain"` (no `@`)
and the engine's initial state. -/
theorem c9_address_validation_witness :
    registerStart "nodomain" engine0 = .error "Invalid SystemX address" ∧
    dialStep "nodomain" ⟨none, none⟩ 0 engine0 = .error "Invalid SystemX address" :=
  (c9_address_validation "nodomain" engine0 ⟨none, none⟩ 0).2 (by decide)

/-- C8: `answer()` succeeds exactly when the call is inbound and
ringing, in which case it sends an `ANSWER` frame and sets the state to
`active`; any other direction/state combination fails with an
illegal-state error (and, the throw happening before any mutation, the
call's state is unchanged). -/
theorem c8_answer (c : CallRec) :
    (c.direction = .inbound ∧ c.state = .ringing →
      callAnswer c = .ok ({c with state := .active}, [.frame (.answer c.id)])) ∧
    (¬(c.direction = .inbound ∧ c.state = .ringing) →
      ∃ msg, callAnswer c = .error msg ∧ IllegalStateMsg msg) := by
  constructor
  · rintro ⟨h1, h2⟩
    unfold callAnswer
    rw [if_neg (by simp [h1]), if_neg (by simp [h2])]
  · intro h
    unfold callAnswer
    by_cases h1 : c.direction = .inbound
    · have h2 : ¬ c.state = .ringing := fun hs => h ⟨h1, hs⟩
      refine ⟨"Call is not ringing", ?_, Or.inr (Or.inl rfl)⟩
      rw [if_neg (by simp [h1]), if_pos (by simp [h2])]
    · refine ⟨"Only inbound calls can be answered", ?_, Or.inl rfl⟩
      rw [if_pos (by simp [h1])]

/-- Witness for C8: a ringing inbound call answers successfully; a
pending outbound call fails with an illegal-state error. -/
theorem c8_answer_witness :
    callAnswer ⟨"call-1", some "bob@example.com", none, none, .inbound, .ringing⟩ =
      .ok (⟨"call-1", some "bob@example.com", none, none, .inbound, .active⟩,
        [.frame (.answer "call-1")]) ∧
    (∃ msg, callAnswer ⟨"call-2", none, some "x@y.z", none, .outbound, .pending⟩ =
      .error msg ∧ IllegalStateMsg msg) :=
  ⟨(c8_answer ⟨"call-1", some "bob@example.com", none, none, .inbound, .ringing⟩).1
      ⟨rfl, rfl⟩,
   (c8_answer ⟨"call-2", none, some "x@y.z", none, .outbound, .pending⟩).2
      (by decide)⟩

/-- Counterexample to C2 as stated: hanging up an active outbound call
leaves its state `active` (not `ended`), and a second `hangup()` emits a
second `HANGUP` frame. -/
theorem c2_hangup_counterexample :
    (callHangup ⟨"call-55", none, some "service@example.com", none, .outbound, .active⟩
      (some "done")).1.state = .active ∧
    ((callHangup ⟨"call-55", none, some "service@example.com", none, .outbound, .active⟩
      (some "done")).2 ++
     (callHangup
        (callHangup ⟨"call-55", none, some "service@example.com", none, .outbound, .active⟩
          (some "done")).1
        (some "done")).2) =
      [.frame (.hangup "call-55" (some "done")), .frame (.hangup "call-55" (some "done"))] :=
  ⟨rfl, rfl⟩

/-- C2 (amended): on a call not in `ended`, `hangup(reason)` sends a
`HANGUP` frame but does not change the call's state — the transition to
`ended` happens only through `receiveHangup` (inbound `HANGUP` frame or
transport close), so a second `hangup()` issued before the call has
reached `ended` sends a second frame; `hangup()` on an `ended` call is a
no-op. -/
theorem c2_hangup_amended (c : CallRec) (reason : Option String) :
    (c.state ≠ .ended →
      callHangup c reason = (c, [.frame (.hangup c.id reason)])) ∧
    (c.state = .ended → callHangup c reason = (c, [])) ∧
    (∀ r2, c.state ≠ .ended →
      (callHangup (callHangup c reason).1 r2).2 = [.frame (.hangup c.id r2)]) ∧
    (c.state ≠ .ended →
      receiveHangup c reason = ({c with state := .ended}, [.evt (.callHangupEvt c.id reason)])) := by
  refine ⟨fun h => ?_, fun h => ?_, fun r2 h => ?_, fun h => ?_⟩
  · unfold callHangup
    rw [if_neg h]
  · unfold callHangup
    rw [if_pos h]
  · unfold callHangup
    rw [if_neg h, if_neg h]
  · unfold receiveHangup
    rw [if_neg h]

/-- Witness for C2 (amended) at an active call and an ended call. -/
theorem c2_hangup_amended_witness :
    callHangup ⟨"call-3", none, some "x@y.z", none, .outbound, .active⟩ (some "bye") =
      (⟨"call-3", none, some "x@y.z", none, .outbound, .active⟩,
        [.frame (.hangup "call-3" (some "bye"))]) ∧
    callHangup ⟨"call-4", none, some "x@y.z", none, .outbound, .ended⟩ none =
      (⟨"call-4", none, some "x@y.z", none, .outbound, .ended⟩, []) :=
  ⟨(c2_hangup_amended ⟨"call-3", none, some "x@y.z", none, .outbound, .active⟩
      (some "bye")).1 (by decide),
   (c2_hangup_amended ⟨"call-4", none, some "x@y.z", none, .outbound, .ended⟩
      none).2.1 rfl⟩

/-- Counterexample to C7 as stated: a plain-object payload is sent with
wire content type `"json"`, not `"structured"`. -/
theorem c7_content_type_counterexample :
    callSend ⟨"call-7", none, some "svc@x.y", none, .outbound, .active⟩
      (.vobj (.jobj [])) none =
      .ok (.msg "call-7" (.vstr "\x7b\x7d") .json) ∧
    contentTypeWire .json = "json" ∧ ¬ contentTypeWire .json = "structured" :=
  ⟨rfl, rfl, by decide⟩

/-- C7 (amended): with no explicit content type, a byte-buffer payload
goes out base64-encoded with content type `binary`; a non-null,
non-buffer object payload goes out `JSON.stringify`-ed with content type
`json` (the wire tag for the spec's *structured* category); every other
payload goes out unchanged with content type `text`. -/
theorem c7_content_type_amended (c : CallRec) (m : JSValue)
    (h : c.state = .active) :
    (∀ bytes, m = .vbuf bytes →
      callSend c m none = .ok (.msg c.id (.vstr (encodeBase64 bytes)) .binary)) ∧
    (∀ o, m = .vobj o →
      callSend c m none = .ok (.msg c.id (.vstr (jxToString o)) .json)) ∧
    ((∀ bytes, m ≠ .vbuf bytes) → (∀ o, m ≠ .vobj o) →
      callSend c m none = .ok (.msg c.id m .text)) := by
  unfold callSend
  rw [if_neg (by simp [h])]
  refine ⟨?_, ?_, ?_⟩
  · rintro bytes rfl
    rfl
  · rintro o rfl
    rfl
  · intro hb ho
    cases m with
    | vstr s => rfl
    | vnum n => rfl
    | vbool b => rfl
    | vnull => rfl
    | vundef => rfl
    | vbuf bytes => exact absurd rfl (hb bytes)
    | vobj o => exact absurd rfl (ho o)

/-- Witness for C7 (amended): the bytes of `"hello"` go out as
`"aGVsbG8="` with `binary`; an object goes out stringified with `json`;
a string goes out unchanged with `text`. -/
theorem c7_content_type_amended_witness :
    callSend ⟨"call-9", none, some "svc@x.y", none, .outbound, .active⟩
      (.vbuf [104, 101, 108, 108, 111]) none =
      .ok (.msg "call-9" (.vstr "aGVsbG8=") .binary) ∧
    callSend ⟨"call-9", none, some "svc@x.y", none, .outbound, .active⟩
      (.vobj (.jobj [("a", .jnum 1)])) none =
      .ok (.msg "call-9" (.vstr "\x7b\"a\":1\x7d") .json) ∧
    callSend ⟨"call-9", none, some "svc@x.y", none, .outbound, .active⟩
      (.vstr "ping") none = .ok (.msg "call-9" (.vstr "ping") .text) :=
  ⟨(c7_content_type_amended _ _ rfl).1 [104, 101, 108, 108, 111] rfl,
   (c7_content_type_amended _ _ rfl).2.1 (.jobj [("a", .jnum 1)]) rfl,
   (c7_content_type_amended _ _ rfl).2.2
     (fun bytes h => by cases h) (fun o h => by cases h)⟩

/-- C1: the `timeoutMs` dial option has no effect — `Trimphone.dial`
never reads it, so the behaviour (resulting engine state, pending-dial
entry and frames) is identical for any two values of `timeoutMs`, and no
timeout bookkeeping exists that could later reject the pending dial.
The second conjunct evaluates `dial` at the failing input
`dial("bob@example.com", ⟨no metadata, timeoutMs = 10⟩)`: the pending
dial is enqueued with no deadline attached. -/
theorem c1_dial_timeout_not_implemented :
    (∀ (toA : String) (m : Option Jx) (t1 t2 : Option Nat) (caller : Nat)
       (s : EngineState),
      dialStep toA ⟨m, t1⟩ caller s = dialStep toA ⟨m, t2⟩ caller s) ∧
    dialStep "bob@example.com" ⟨none, some 10⟩ 0 connectedEngine =
      .ok ({connectedEngine with pendingDials := [⟨"bob@example.com", none, 0⟩]},
        [.frame (.dial "bob@example.com" none)]) :=
  ⟨fun _ _ _ _ _ _ => rfl, rfl⟩

/-- C10: a `CONNECTED` frame whose `call_id` is unknown while the
pending-dial FIFO is empty is ignored entirely: the state is returned
unchanged and no effect (frame, settlement or event) is produced. -/
theorem c10_connected_unknown_ignored (s : EngineState) (callId : String)
    (to? fromA? : Option String) (meta : Option Jx)
    (h1 : mapLookup callId s.calls = none) (h2 : s.pendingDials = []) :
    handleConnected callId to? fromA? meta s = (s, []) := by
  have hd : dequeuePendingDial to? s.pendingDials = (none, []) := by
    rw [h2]
    cases to? with
    | none => rfl
    | some t =>
      by_cases ht : t = ""
      · simp [dequeuePendingDial, ht]
      · simp [dequeuePendingDial, ht, jsFindIndex]
  unfold handleConnected
  rw [h1, hd]

/-- Witness for C10: an unknown `CONNECTED` on a connected engine with
no calls and no pending dials does nothing. -/
theorem c10_connected_unknown_ignored_witness :
    handleConnected "call-99" (some "a@b.c") none none connectedEngine =
      (connectedEngine, []) :=
  c10_connected_unknown_ignored connectedEngine "call-99" (some "a@b.c") none none rfl rfl

theorem jsFindIndex_eq_neg_one {α : Type} (p : α → Bool) (l : List α)
    (h : ∀ x ∈ l, p x = false) : jsFindIndex p l = -1 := by
  induction l with
  | nil => rfl
  | cons a rest ih =>
    have ha : p a = false := h a (List.mem_cons_self a rest)
    have hrest : jsFindIndex p rest = -1 :=
      ih (fun x hx => h x (List.mem_cons_of_mem _ hx))
    simp [jsFindIndex, ha, hrest]

theorem jsFindIndex_append_found {α : Type} (p : α → Bool) (pre : List α)
    (x : α) (post : List α) (hpre : ∀ q ∈ pre, p q = false) (hx : p x = true) :
    jsFindIndex p (pre ++ x :: post) = (pre.length : Int) := by
  induction pre with
  | nil => simp [jsFindIndex, hx]
  | cons a pre' ih =>
    have ha : p a = false := hpre a (List.mem_cons_self a pre')
    have hrec : jsFindIndex p (pre' ++ x :: post) = (pre'.length : Int) :=
      ih (fun q hq => hpre q (List.mem_cons_of_mem _ hq))
    have hne : ¬ ((pre'.length : Int) = -1) := by omega
    have hrec' : jsFindIndex p (pre'.append (x :: post)) = (pre'.length : Int) := hrec
    simp only [List.cons_append, jsFindIndex, ha, Bool.false_eq_true, if_false,
      hrec, hrec', List.length_cons]
    rw [if_neg hne]
    push_cast
    ring

theorem get?_append_cons {α : Type} (pre : List α) (x : α) (post : List α) :
    (pre ++ x :: post).get? pre.length = some x := by
  induction pre with
  | nil => rfl
  | cons a pre' ih => simpa using ih

theorem eraseIdx_append_cons {α : Type} (pre : List α) (x : α) (post : List α) :
    (pre ++ x :: post).eraseIdx pre.length = pre ++ post := by
  induction pre with
  | nil => rfl
  | cons a pre' ih => simpa [List.eraseIdx] using ih

theorem exists_first_occurrence {α : Type} (p : α → Bool) (l : List α)
    (h : l.any p = true) :
    ∃ pre x post, l = pre ++ x :: post ∧ p x = true ∧ ∀ q ∈ pre, p q = false := by
  induction l with
  | nil => simp at h
  | cons a rest ih =>
    by_cases ha : p a = true
    · exact ⟨[], a, rest, rfl, ha, by simp⟩
    · have ha' : p a = false := by
        revert ha
        cases p a <;> simp
      have h' : rest.any p = true := by simpa [ha'] using h
      obtain ⟨pre, x, post, hdec, hx, hpre⟩ := ih h'
      refine ⟨a :: pre, x, post, by rw [hdec, List.cons_append], hx, ?_⟩
      intro q hq
      rcases List.mem_cons.mp hq with h1 | h2
      · rw [h1]
        exact ha'
      · exact hpre q h2

/-- `dequeuePendingDial` with a destination satisfies the claim's
dequeue rule whenever the FIFO is non-empty and every queued destination
is a non-empty string (which `dial`'s validation guarantees). -/
theorem dequeuePendingDial_spec (t : String) (pds : List PendingDial)
    (hne : pds ≠ []) (hq : ∀ q ∈ pds, q.toAddr ≠ "") :
    ∃ pd rest, dequeuePendingDial (some t) pds = (some pd, rest) ∧
      DequeueSpec (some t) pds pd rest := by
  by_cases ht : t = ""
  · cases pds with
    | nil => exact absurd rfl hne
    | cons p0 rest0 =>
      refine ⟨p0, rest0, by simp [dequeuePendingDial, ht], Or.inr ⟨?_, rfl⟩⟩
      intro q hqmem
      rw [ht]
      exact hq q hqmem
  · by_cases hany : pds.any (fun pd => pd.toAddr = t) = true
    · obtain ⟨pre, x, post, hdec, hx, hpre⟩ :=
        exists_first_occurrence (fun pd => decide (pd.toAddr = t)) pds hany
      have hxt : x.toAddr = t := of_decide_eq_true hx
      have hpre' : ∀ q ∈ pre, q.toAddr ≠ t :=
        fun q hqm => of_decide_eq_false (hpre q hqm)
      refine ⟨x, pre ++ post, ?_, Or.inl ⟨pre, post, hdec, hxt, hpre', rfl⟩⟩
      have hidx : jsFindIndex (fun pd => decide (pd.toAddr = t)) pds = (pre.length : Int) := by
        rw [hdec]
        exact jsFindIndex_append_found _ pre x post hpre hx
      have hneg : ¬ ((pre.length : Int) = -1) := by omega
      simp only [dequeuePendingDial, if_neg ht, hidx, if_neg hneg]
      have htn : ((pre.length : Int)).toNat = pre.length := by simp
      rw [htn, hdec, get?_append_cons, eraseIdx_append_cons]
    · have hall : ∀ x ∈ pds, (fun pd => decide (pd.toAddr = t)) x = false := by
        intro x hx
        simp only [decide_eq_false_iff_not]
        intro hxt
        exact hany (List.any_eq_true.mpr ⟨x, hx, by simp [hxt]⟩)
      have hidx : jsFindIndex (fun pd => decide (pd.toAddr = t)) pds = -1 :=
        jsFindIndex_eq_neg_one _ pds hall
      cases pds with
      | nil => exact absurd rfl hne
      | cons p0 rest0 =>
        refine ⟨p0, rest0, ?_, Or.inr ⟨?_, rfl⟩⟩
        · simp only [dequeuePendingDial, if_neg ht, hidx, if_pos rfl]
          rfl
        · intro q hqm
          exact of_decide_eq_false (hall q hqm)

theorem mapLookup_eq_none_iff (k : String) (m : List (String × CallRec)) :
    mapLookup k m = none ↔ ∀ p ∈ m, p.1 ≠ k := by
  induction m with
  | nil => simp [mapLookup]
  | cons a rest ih =>
    unfold mapLookup
    by_cases hk : a.1 = k
    · constructor
      · intro h
        rw [show a = (a.1, a.2) from rfl] at h
        rw [if_pos hk] at h
        cases h
      · intro h
        exact absurd hk (h a (List.mem_cons_self a rest))
    · rw [show a = (a.1, a.2) from rfl]
      rw [if_neg hk]
      constructor
      · intro h q hqm
        rcases List.mem_cons.mp hqm with h1 | h2
        · rw [h1]
          exact hk
        · exact (ih.mp h) q h2
      · intro h
        exact ih.mpr (fun q hqm => h q (List.mem_cons_of_mem _ hqm))

theorem mapSet_of_free (k : String) (v : CallRec)
    (m : List (String × CallRec)) (h : ∀ p ∈ m, p.1 ≠ k) :
    mapSet k v m = m ++ [(k, v)] := by
  unfold mapSet
  rw [if_neg ?_]
  intro hany
  obtain ⟨x, hx, hpx⟩ := List.any_eq_true.mp hany
  exact h x hx (of_decide_eq_true hpx)

theorem map_setActive_free (callId : String) (m : List (String × CallRec))
    (v : CallRec) (h : ∀ p ∈ m, p.1 ≠ callId) :
    (m ++ [(callId, v)]).map
      (fun p => if p.1 = callId then (p.1, {p.2 with state := .active}) else p) =
      m ++ [(callId, {v with state := .active})] := by
  induction m with
  | nil => simp
  | cons a m' ih =>
    have ha : ¬ a.1 = callId := h a (List.mem_cons_self a m')
    have := ih (fun p hp => h p (List.mem_cons_of_mem _ hp))
    simp only [List.cons_append, List.map_cons, if_neg ha, this]

theorem mapLookup_map_setActive_self (callId : String)
    (m : List (String × CallRec)) :
    mapLookup callId (m.map
      (fun p => if p.1 = callId then (p.1, {p.2 with state := .active}) else p)) =
      (mapLookup callId m).map (fun c => {c with state := .active}) := by
  induction m with
  | nil => rfl
  | cons a rest ih =>
    by_cases hk : a.1 = callId
    · simp only [List.map_cons, if_pos hk]
      unfold mapLookup
      rw [show a = (a.1, a.2) from rfl]
      simp only [if_pos hk]
      rfl
    · simp only [List.map_cons, if_neg hk]
      unfold mapLookup
      rw [show a = (a.1, a.2) from rfl]
      simp only [if_neg hk]
      exact ih

theorem mapLookup_map_setActive_other (callId k : String)
    (m : List (String × CallRec)) (hk : ¬ k = callId) :
    mapLookup k (m.map
      (fun p => if p.1 = callId then (p.1, {p.2 with state := .active}) else p)) =
      mapLookup k m := by
  induction m with
  | nil => rfl
  | cons a rest ih =>
    by_cases h1 : a.1 = callId
    · simp only [List.map_cons, if_pos h1]
      unfold mapLookup
      have hak : ¬ a.1 = k := fun hek => hk (by rw [← hek, h1])
      rw [show a = (a.1, a.2) from rfl]
      simp only [hak, if_neg, if_false]
      exact ih
    · simp only [List.map_cons, if_neg h1]
      unfold mapLookup
      rw [show a = (a.1, a.2) from rfl]
      by_cases hak : a.1 = k
      · simp only [if_pos hak]
      · simp only [if_neg hak]
        exact ih

/-- The unknown-call branch of `handleConnected` in closed form: with
the call id absent from the table and a successful dequeue, the new
outbound call is appended to the table in state `active`, the dial's
promise is resolved with it, and the call's `connected` event fires
after the resolution. -/
theorem handleConnected_unknown_result (s : EngineState) (callId : String)
    (to? fromA? : Option String) (meta : Option Jx) (pd : PendingDial)
    (rest : List PendingDial)
    (hnone : mapLookup callId s.calls = none)
    (hdq : dequeuePendingDial to? s.pendingDials = (some pd, rest)) :
    handleConnected callId to? fromA? meta s =
      ({s with
        calls := (s.calls ++ [(callId, ⟨callId, fromA?, to?, meta, .outbound, .active⟩)]),
        pendingDials := rest},
       [.settle (.dialResolved pd.callerId callId), .evt (.callConnected callId)]) := by
  have hfree : ∀ p ∈ s.calls, p.1 ≠ callId := (mapLookup_eq_none_iff callId s.calls).mp hnone
  unfold handleConnected
  rw [hnone, hdq]
  unfold setCallActive
  simp only [mapSet_of_free callId _ s.calls hfree, map_setActive_free callId s.calls _ hfree]

/-- C4: on `CONNECTED(call_id, to?)` — if the call table contains
`call_id`, that call transitions to `active` (its `connected` event
fires; table keys, other entries and the pending-dial FIFO are
untouched); otherwise, provided dials are pending (with the non-empty
destinations `dial` guarantees), the engine dequeues the first pending
dial whose destination equals `to` (falling back to the oldest when `to`
is absent or unmatched), appends an outbound call under `call_id`,
resolves that dial's promise with it, and the call ends up `active`. -/
theorem c4_handle_connected (s : EngineState) (callId : String)
    (to? fromA? : Option String) (meta : Option Jx) :
    (∀ c, mapLookup callId s.calls = some c →
      (handleConnected callId to? fromA? meta s).1.pendingDials = s.pendingDials ∧
      mapLookup callId (handleConnected callId to? fromA? meta s).1.calls =
        some {c with state := .active} ∧
      (∀ k, ¬ k = callId →
        mapLookup k (handleConnected callId to? fromA? meta s).1.calls =
          mapLookup k s.calls) ∧
      (handleConnected callId to? fromA? meta s).2 = [.evt (.callConnected callId)]) ∧
    (mapLookup callId s.calls = none → s.pendingDials ≠ [] →
      (∀ q ∈ s.pendingDials, q.toAddr ≠ "") →
      ∃ pd rest, dequeuePendingDial to? s.pendingDials = (some pd, rest) ∧
        DequeueSpec to? s.pendingDials pd rest ∧
        handleConnected callId to? fromA? meta s =
          ({s with
            calls := (s.calls ++ [(callId, ⟨callId, fromA?, to?, meta, .outbound, .active⟩)]),
            pendingDials := rest},
           [.settle (.dialResolved pd.callerId callId),
            .evt (.callConnected callId)])) := by
  constructor
  · intro c hc
    unfold handleConnected
    rw [hc]
    refine ⟨rfl, ?_, ?_, rfl⟩
    · unfold setCallActive
      rw [mapLookup_map_setActive_self callId s.calls, hc]
      rfl
    · intro k hk
      unfold setCallActive
      exact mapLookup_map_setActive_other callId k s.calls hk
  · intro hnone hne hq
    match hto : to? with
    | none =>
      cases hpds : s.pendingDials with
      | nil => exact absurd hpds hne
      | cons p0 rest0 =>
        have hdq' : dequeuePendingDial none s.pendingDials = (some p0, rest0) := by
          rw [hpds]
          rfl
        refine ⟨p0, rest0, rfl, rfl, ?_⟩
        exact handleConnected_unknown_result s callId none fromA? meta p0 rest0 hnone hdq' 
    | some t =>
      obtain ⟨pd, rest, hdq, hspec⟩ := dequeuePendingDial_spec t s.pendingDials hne hq
      exact ⟨pd, rest, hdq, hspec,
        handleConnected_unknown_result s callId (some t) fromA? meta pd rest hnone hdq⟩

/-- Witness for C4: an existing call goes active on `CONNECTED`; with an
unknown id, the pending dial whose destination matches `to` (the second
of two) is dequeued and resolved, the first staying queued. -/
theorem c4_handle_connected_witness :
    mapLookup "call-1" (handleConnected "call-1" none none none
        {connectedEngine with
          calls := [("call-1", ⟨"call-1", some "a@b.c", none, none, .inbound, .ringing⟩)]}).1.calls =
      some ⟨"call-1", some "a@b.c", none, none, .inbound, .active⟩ ∧
    handleConnected "call-2" (some "bob@example.com") none none
        {connectedEngine with pendingDials :=
          [⟨"ann@example.com", none, 0⟩, ⟨"bob@example.com", none, 1⟩]} =
      ({connectedEngine with
          calls := [("call-2", ⟨"call-2", none, some "bob@example.com", none, .outbound, .active⟩)],
          pendingDials := [⟨"ann@example.com", none, 0⟩]},
       [.settle (.dialResolved 1 "call-2"), .evt (.callConnected "call-2")]) := by
  constructor
  · exact ((c4_handle_connected
      {connectedEngine with
        calls := [("call-1", ⟨"call-1", some "a@b.c", none, none, .inbound, .ringing⟩)]}
      "call-1" none none none).1
      ⟨"call-1", some "a@b.c", none, none, .inbound, .ringing⟩ rfl).2.1
  · obtain ⟨pd, rest, hdq, hspec, hres⟩ := (c4_handle_connected
      {connectedEngine with pendingDials :=
        [⟨"ann@example.com", none, 0⟩, ⟨"bob@example.com", none, 1⟩]}
      "call-2" (some "bob@example.com") none none).2 rfl (by simp)
      (by decide)
    have hdq2 : dequeuePendingDial (some "bob@example.com")
        [⟨"ann@example.com", none, 0⟩, ⟨"bob@example.com", none, 1⟩] =
        (some ⟨"bob@example.com", none, 1⟩, [⟨"ann@example.com", none, 0⟩]) := rfl
    have heq : ((some pd, rest) : Option PendingDial × List PendingDial) =
        (some ⟨"bob@example.com", none, 1⟩, [⟨"ann@example.com", none, 0⟩]) :=
      hdq.symm.trans hdq2
    have hpd : pd = ⟨"bob@example.com", none, 1⟩ :=
      Option.some.inj (congrArg Prod.fst heq)
    have hrest : rest = [⟨"ann@example.com", none, 0⟩] := congrArg Prod.snd heq
    subst hpd
    subst hrest
    exact hres

theorem filterMap_nil_of_none {α β : Type} (f : α → Option β) (l : List α)
    (h : ∀ a ∈ l, f a = none) : l.filterMap f = [] := by
  induction l with
  | nil => rfl
  | cons a rest ih =>
    rw [List.filterMap_cons, h a (List.mem_cons_self a rest)]
    exact ih (fun x hx => h x (List.mem_cons_of_mem _ hx))

theorem dialSettlesOf_append (l1 l2 : List Eff) :
    dialSettlesOf (l1 ++ l2) = dialSettlesOf l1 ++ dialSettlesOf l2 := by
  simp [dialSettlesOf, List.filterMap_append]

theorem dialSettlesOf_reg_rejects (callers : List Nat) (m : String) :
    dialSettlesOf (callers.map (fun c => Eff.settle (Settle.registerRejected c m))) = [] := by
  induction callers with
  | nil => rfl
  | cons c rest ih => simp [dialSettlesOf, List.filterMap_cons, ih]

theorem dialSettlesOf_dial_rejects (pds : List PendingDial) (m : String) :
    dialSettlesOf (pds.map (fun pd => Eff.settle (Settle.dialRejected pd.callerId m))) =
      pds.map (fun pd => Settle.dialRejected pd.callerId m) := by
  induction pds with
  | nil => rfl
  | cons pd rest ih => simpa [dialSettlesOf, List.filterMap_cons] using ih

theorem dialSettlesOf_evts (l : List Eff) (h : ∀ e ∈ l, ∃ ev, e = Eff.evt ev) :
    dialSettlesOf l = [] := by
  apply filterMap_nil_of_none
  intro a ha
  obtain ⟨ev, rfl⟩ := h a ha
  rfl

/-- C5: a transport close observed while `connected` or `connecting`
leaves the pending-dial FIFO empty, and the dial settlements it produces
are exactly one `Disconnected` rejection per pending dial, in FIFO
order — each pending dial is rejected exactly once and none is resolved. -/
theorem c5_close_drains_dials (s : EngineState) (code : Nat)
    (reason : Option String)
    (h : s.connectionState = .connected ∨ s.connectionState = .connecting) :
    (handleTransportClose code reason s).1.pendingDials = [] ∧
    dialSettlesOf (handleTransportClose code reason s).2 =
      s.pendingDials.map (fun pd => Settle.dialRejected pd.callerId "Disconnected") := by
  have hne : ¬ s.connectionState = .disconnected := by
    rcases h with h | h <;> simp [h]
  constructor
  · simp [handleTransportClose, if_neg hne]
  · simp only [handleTransportClose, if_neg hne]
    rw [dialSettlesOf_append, dialSettlesOf_append, dialSettlesOf_append]
    have h1 : dialSettlesOf
        (match s.registerDeferred with
         | some callers => callers.map (fun c => Eff.settle (Settle.registerRejected c "Disconnected"))
         | none => []) = [] := by
      cases s.registerDeferred with
      | none => rfl
      | some callers => exact dialSettlesOf_reg_rejects callers "Disconnected"
    have h2 : dialSettlesOf
        (s.calls.filterMap (fun p =>
          if p.2.state = CallState.ended then none
          else some (Eff.evt (EvtOut.callHangupEvt p.1 (some "disconnected"))))) = [] := by
      apply dialSettlesOf_evts
      intro e he
      obtain ⟨p, hp, hpe⟩ := List.mem_filterMap.mp he
      by_cases hps : p.2.state = CallState.ended
      · rw [if_pos hps] at hpe
        cases hpe
      · rw [if_neg hps] at hpe
        exact ⟨EvtOut.callHangupEvt p.1 (some "disconnected"), (Option.some.inj hpe).symm⟩
    rw [h1, dialSettlesOf_dial_rejects, h2]
    simp [dialSettlesOf]

/-- Witness for C5: a connected engine with two pending dials rejects
both with `Disconnected` and empties the FIFO. -/
theorem c5_close_drains_dials_witness :
    (handleTransportClose 1006 (some "network")
      {connectedEngine with
        pendingDials := [⟨"a@b.c", none, 0⟩, ⟨"d@e.f", none, 1⟩]}).1.pendingDials = [] ∧
    dialSettlesOf (handleTransportClose 1006 (some "network")
      {connectedEngine with
        pendingDials := [⟨"a@b.c", none, 0⟩, ⟨"d@e.f", none, 1⟩]}).2 =
      [Settle.dialRejected 0 "Disconnected", Settle.dialRejected 1 "Disconnected"] :=
  c5_close_drains_dials
    {connectedEngine with pendingDials := [⟨"a@b.c", none, 0⟩, ⟨"d@e.f", none, 1⟩]}
    1006 (some "network") (Or.inl rfl)

theorem failedAttemptsIter_base (s : EngineState) (k : Nat) :
    (failedAttemptsIter s k).baseReconnectBackoffMs = s.baseReconnectBackoffMs := by
  induction k with
  | zero => rfl
  | succ k ih => simpa [failedAttemptsIter, onReconnectAttemptFailed] using ih

theorem failedAttemptsIter_max (s : EngineState) (k : Nat) :
    (failedAttemptsIter s k).maxReconnectBackoffMs = s.maxReconnectBackoffMs := by
  induction k with
  | zero => rfl
  | succ k ih => simpa [failedAttemptsIter, onReconnectAttemptFailed] using ih

theorem failedAttemptsIter_delay_formula (s : EngineState)
    (hbase : s.currentReconnectDelay = s.baseReconnectBackoffMs) (k : Nat) :
    (failedAttemptsIter s (k + 1)).currentReconnectDelay =
      min (2 ^ (k + 1) * s.baseReconnectBackoffMs) s.maxReconnectBackoffMs := by
  induction k with
  | zero =>
    simp only [failedAttemptsIter, onReconnectAttemptFailed, hbase, Nat.zero_add,
      pow_one, Nat.mul_comm]
  | succ k ih =>
    show (onReconnectAttemptFailed (failedAttemptsIter s (k + 1))).currentReconnectDelay =
      min (2 ^ (k + 2) * s.baseReconnectBackoffMs) s.maxReconnectBackoffMs
    unfold onReconnectAttemptFailed
    simp only [ih, failedAttemptsIter_max]
    have hpow : 2 ^ (k + 2) * s.baseReconnectBackoffMs =
        (2 ^ (k + 1) * s.baseReconnectBackoffMs) * 2 := by
      rw [pow_succ]
      ring
    rw [hpow]
    generalize 2 ^ (k + 1) * s.baseReconnectBackoffMs = x
    omega

/-- C6: starting from a disconnect (where the delay has been reset to
the base `B`), the reconnect delays are `B` before the first attempt and
`min(2^k · B, C)` after the `k`-th consecutive failure (never exceeding
the cap `C`); a successful attempt — including the connect-open handler —
resets the delay to `B`. -/
theorem c6_backoff (s : EngineState)
    (hbase : s.currentReconnectDelay = s.baseReconnectBackoffMs) :
    (failedAttemptsIter s 0).currentReconnectDelay = s.baseReconnectBackoffMs ∧
    (∀ k, 1 ≤ k → (failedAttemptsIter s k).currentReconnectDelay =
      min (2 ^ k * s.baseReconnectBackoffMs) s.maxReconnectBackoffMs) ∧
    (∀ k, 1 ≤ k → (failedAttemptsIter s k).currentReconnectDelay ≤
      s.maxReconnectBackoffMs) ∧
    (∀ k, (onReconnectAttemptSucceeded (failedAttemptsIter s k)).currentReconnectDelay =
      s.baseReconnectBackoffMs) ∧
    (∀ s2 : EngineState, s2.connectionState = .connecting →
      (rstep s2 .transportOpen).1.currentReconnectDelay = s2.baseReconnectBackoffMs) := by
  refine ⟨hbase, ?_, ?_, ?_, ?_⟩
  · intro k hk
    obtain ⟨k', rfl⟩ : ∃ k', k = k' + 1 := ⟨k - 1, by omega⟩
    exact failedAttemptsIter_delay_formula s hbase k'
  · intro k hk
    obtain ⟨k', rfl⟩ : ∃ k', k = k' + 1 := ⟨k - 1, by omega⟩
    rw [failedAttemptsIter_delay_formula s hbase k']
    exact Nat.min_le_right _ _
  · intro k
    unfold onReconnectAttemptSucceeded
    simp [failedAttemptsIter_base]
  · intro s2 h2
    simp [rstep, h2]

/-- Witness for C6: with the default base 1000 and cap 30000, the delay
is 4000 after two failures, capped at 30000 after six, and reset to 1000
by a successful open. -/
theorem c6_backoff_witness :
    (failedAttemptsIter engine0 2).currentReconnectDelay = 4000 ∧
    (failedAttemptsIter engine0 6).currentReconnectDelay = 30000 ∧
    (rstep {engine0 with connectionState := .connecting}
      .transportOpen).1.currentReconnectDelay = 1000 :=
  ⟨(c6_backoff engine0 rfl).2.1 2 (by decide),
   (c6_backoff engine0 rfl).2.1 6 (by decide),
   (c6_backoff engine0 rfl).2.2.2.2 {engine0 with connectionState := .connecting} rfl⟩

theorem runTrace_cons (s : EngineState) (e : REvent) (rest : List REvent) :
    runTrace s (e :: rest) =
      ((runTrace (rstep s e).1 rest).1,
       (rstep s e).2 ++ (runTrace (rstep s e).1 rest).2) := rfl

theorem runTrace_append (s : EngineState) (l1 l2 : List REvent) :
    runTrace s (l1 ++ l2) =
      ((runTrace (runTrace s l1).1 l2).1,
       (runTrace s l1).2 ++ (runTrace (runTrace s l1).1 l2).2) := by
  induction l1 generalizing s with
  | nil => rfl
  | cons e rest ih =>
    rw [List.cons_append, runTrace_cons, ih (rstep s e).1, runTrace_cons]
    simp [List.append_assoc]

theorem registerFrameCount_append (l1 l2 : List Eff) :
    registerFrameCount (l1 ++ l2) = registerFrameCount l1 + registerFrameCount l2 := by
  simp [registerFrameCount, List.filter_append]

theorem settlesOf_append (l1 l2 : List Eff) :
    settlesOf (l1 ++ l2) = settlesOf l1 ++ settlesOf l2 := by
  simp [settlesOf, List.filterMap_append]

theorem registerFrameCount_settle_map {β : Type} (f : β → Settle) (l : List β) :
    registerFrameCount (l.map (fun b => Eff.settle (f b))) = 0 := by
  induction l with
  | nil => rfl
  | cons b rest ih => simp [registerFrameCount]

theorem settlesOf_settle_map {β : Type} (f : β → Settle) (l : List β) :
    settlesOf (l.map (fun b => Eff.settle (f b))) = l.map f := by
  induction l with
  | nil => rfl
  | cons b rest ih => simp [settlesOf, List.filterMap_cons] at ih ⊢; exact ih

/-- Counterexample to C3 as stated: a single `register` call from a
disconnected engine (`registerOnConnect = true`, the default) puts TWO
`REGISTER` frames on the transport before any completion fires — one
from the connect-open handler's auto-registration and one from the
caller's own continuation. -/
theorem c3_register_counterexample :
    registerFrameCount (runTrace engine0
      [.regStart 0 "alice@example.com", .transportOpen, .regProceed 0]).2 = 2 ∧
    settlesOf (runTrace engine0
      [.regStart 0 "alice@example.com", .transportOpen, .regProceed 0]).2 = [] := by
  constructor <;> rfl

/-- While only register-call events for a pinned address run on a
connected engine, the engine stays connected with the address pinned,
the deferred accumulates the proceeding callers in order, the callers
emit one `REGISTER` frame when they create the deferred and none when
they chain onto an existing one, and nothing settles. -/
theorem runTrace_reg_events (a : String) :
    ∀ (es : List REvent) (s : EngineState),
    (∀ e ∈ es, isRegEvent a e = true) →
    s.connectionState = .connected → s.registeredAddress = some a →
    (runTrace s es).1.connectionState = .connected ∧
    (runTrace s es).1.registeredAddress = some a ∧
    (runTrace s es).1.registerDeferred =
      (match s.registerDeferred with
       | some l => some (l ++ proceedCallers es)
       | none => if proceedCallers es = [] then none else some (proceedCallers es)) ∧
    registerFrameCount (runTrace s es).2 =
      (match s.registerDeferred with
       | some _ => 0
       | none => if proceedCallers es = [] then 0 else 1) ∧
    settlesOf (runTrace s es).2 = [] := by
  intro es
  induction es with
  | nil =>
    intro s h hc ha
    refine ⟨hc, ha, ?_, ?_, rfl⟩
    · cases hrd : s.registerDeferred <;>
        simp [runTrace, proceedCallers, hrd]
    · cases hrd : s.registerDeferred <;>
        simp [runTrace, proceedCallers, registerFrameCount, hrd]
  | cons e rest ih =>
    intro s h hc ha
    have he : isRegEvent a e = true := h e (List.mem_cons_self e rest)
    have hrest : ∀ e2 ∈ rest, isRegEvent a e2 = true :=
      fun e2 h2 => h e2 (List.mem_cons_of_mem _ h2)
    rw [runTrace_cons, registerFrameCount_append, settlesOf_append]
    cases e with
    | transportOpen => simp [isRegEvent] at he
    | frameRegistered => simp [isRegEvent] at he
    | frameRegisterFailed r => simp [isRegEvent] at he
    | regStart c a2 =>
      have ha2 : a2 = a := by simpa [isRegEvent] using he
      have hs1c : (rstep s (.regStart c a2)).1.connectionState = .connected := by
        by_cases hval : isValidAddress a2 = true
        · simp only [rstep, registerStart, hval, Bool.not_true]
          simp [hc]
        · simp only [rstep, registerStart]
          rw [if_pos (by simp [hval])]
          exact hc
      have hs1a : (rstep s (.regStart c a2)).1.registeredAddress = some a := by
        by_cases hval : isValidAddress a2 = true
        · simp only [rstep, registerStart, hval, Bool.not_true]
          simp [ha2]
        · simp only [rstep, registerStart]
          rw [if_pos (by simp [hval])]
          exact ha
      have hs1d : (rstep s (.regStart c a2)).1.registerDeferred = s.registerDeferred := by
        by_cases hval : isValidAddress a2 = true
        · simp only [rstep, registerStart, hval, Bool.not_true]
          simp
        · simp only [rstep, registerStart]
          rw [if_pos (by simp [hval])]
      have heff : (rstep s (.regStart c a2)).2 = [] := by
        by_cases hval : isValidAddress a2 = true
        · simp only [rstep, registerStart, hval, Bool.not_true]
          simp
        · simp only [rstep, registerStart]
          rw [if_pos (by simp [hval])]
      obtain ⟨i1, i2, i3, i4, i5⟩ := ih (rstep s (.regStart c a2)).1 hrest hs1c hs1a
      refine ⟨i1, i2, ?_, ?_, ?_⟩
      · rw [i3, hs1d]
        simp only [proceedCallers]
      · rw [i4, hs1d, heff]
        simp only [proceedCallers, registerFrameCount, List.filter_nil,
          List.length_nil, Nat.zero_add]
      · rw [i5, heff]
        rfl
    | regProceed c =>
      cases hrd : s.registerDeferred with
      | some l =>
        have hs1c : (rstep s (.regProceed c)).1.connectionState = .connected := by
          simp [rstep, hrd, hc]
        have hs1a : (rstep s (.regProceed c)).1.registeredAddress = some a := by
          simp [rstep, hrd, ha]
        have hs1d : (rstep s (.regProceed c)).1.registerDeferred = some (l ++ [c]) := by
          simp [rstep, hrd]
        have heff : (rstep s (.regProceed c)).2 = [] := by
          simp [rstep, hrd]
        obtain ⟨i1, i2, i3, i4, i5⟩ := ih (rstep s (.regProceed c)).1 hrest hs1c hs1a
        refine ⟨i1, i2, ?_, ?_, ?_⟩
        · rw [i3, hs1d]
          simp [proceedCallers, List.append_assoc]
        · rw [i4, hs1d, heff]
          simp [registerFrameCount]
        · rw [i5, heff]
          rfl
      | none =>
        have hs1c : (rstep s (.regProceed c)).1.connectionState = .connected := by
          simp [rstep, hrd, hc]
        have hs1a : (rstep s (.regProceed c)).1.registeredAddress = some a := by
          simp [rstep, hrd, ha]
        have hs1d : (rstep s (.regProceed c)).1.registerDeferred = some [c] := by
          simp [rstep, hrd]
        have heff : (rstep s (.regProceed c)).2 = [.frame (.register a)] := by
          simp [rstep, hrd, sendRegisterMessage, ha]
        obtain ⟨i1, i2, i3, i4, i5⟩ := ih (rstep s (.regProceed c)).1 hrest hs1c hs1a
        refine ⟨i1, i2, ?_, ?_, ?_⟩
        · rw [i3, hs1d]
          simp [proceedCallers]
        · rw [i4, hs1d, heff]
          simp [registerFrameCount, proceedCallers]
        · rw [i5, heff]
          rfl

/-- C3 (amended): for concurrent `register` calls for one address on an
already connected engine with no registration in flight, the callers
themselves emit exactly one `REGISTER` frame until the completion fires
(the first continuation creates the deferred and sends; later callers
chain and send nothing), and all callers settle together with the same
outcome — all resolved on `REGISTERED`, or all rejected with the same
reason on `REGISTER_FAILED`.  (When registration instead triggers a
fresh connection with `registerOnConnect`, the open handler emits one
additional `REGISTER` frame — see the counterexample.) -/
theorem c3_register_amended (s : EngineState) (a : String) (es : List REvent)
    (r : String) (hc : s.connectionState = .connected)
    (ha : s.registeredAddress = some a) (hd : s.registerDeferred = none)
    (hreg : ∀ e ∈ es, isRegEvent a e = true)
    (hp : proceedCallers es ≠ []) :
    (registerFrameCount (runTrace s (es ++ [.frameRegistered])).2 = 1 ∧
     settlesOf (runTrace s (es ++ [.frameRegistered])).2 =
       (proceedCallers es).map Settle.registerResolved) ∧
    (registerFrameCount (runTrace s (es ++ [.frameRegisterFailed r])).2 = 1 ∧
     settlesOf (runTrace s (es ++ [.frameRegisterFailed r])).2 =
       (proceedCallers es).map
         (fun c => Settle.registerRejected c ("Registration failed: " ++ r))) := by
  obtain ⟨i1, i2, i3, i4, i5⟩ := runTrace_reg_events a es s hreg hc ha
  rw [hd] at i3 i4
  rw [if_neg hp] at i3
  rw [if_neg hp] at i4
  constructor
  · rw [runTrace_append, registerFrameCount_append, settlesOf_append, i4, i5]
    have hfx : (rstep (runTrace s es).1 .frameRegistered).2 =
        ((proceedCallers es).map (fun c => Eff.settle (Settle.registerResolved c)) ++
          [.evt (.registeredEvt a)]) := by
      simp [rstep, i3, i2]
    rw [show runTrace (runTrace s es).1 [REvent.frameRegistered] =
        ((rstep (runTrace s es).1 .frameRegistered).1,
         (rstep (runTrace s es).1 .frameRegistered).2 ++ []) from rfl]
    rw [hfx]
    constructor
    · rw [List.append_nil, registerFrameCount_append, registerFrameCount_settle_map]
      rfl
    · rw [List.append_nil, settlesOf_append, settlesOf_settle_map, List.nil_append]
      simp [settlesOf]
  · rw [runTrace_append, registerFrameCount_append, settlesOf_append, i4, i5]
    have hfx : (rstep (runTrace s es).1 (.frameRegisterFailed r)).2 =
        ((proceedCallers es).map
            (fun c => Eff.settle (Settle.registerRejected c ("Registration failed: " ++ r))) ++
          [.evt (.registrationFailedEvt r)]) := by
      simp [rstep, i3]
    rw [show runTrace (runTrace s es).1 [REvent.frameRegisterFailed r] =
        ((rstep (runTrace s es).1 (.frameRegisterFailed r)).1,
         (rstep (runTrace s es).1 (.frameRegisterFailed r)).2 ++ []) from rfl]
    rw [hfx]
    constructor
    · rw [List.append_nil, registerFrameCount_append, registerFrameCount_settle_map]
      rfl
    · rw [List.append_nil, settlesOf_append, settlesOf_settle_map, List.nil_append]
      simp [settlesOf]

/-- Witness for C3 (amended): two concurrent callers on a connected,
pinned engine — one `REGISTER` frame, both resolved together (or both
rejected together with the same reason). -/
theorem c3_register_amended_witness :
    (registerFrameCount (runTrace
        {connectedEngine with registeredAddress := some "alice@example.com"}
        ([.regProceed 0, .regProceed 1] ++ [.frameRegistered])).2 = 1 ∧
     settlesOf (runTrace
        {connectedEngine with registeredAddress := some "alice@example.com"}
        ([.regProceed 0, .regProceed 1] ++ [.frameRegistered])).2 =
       [Settle.registerResolved 0, Settle.registerResolved 1]) ∧
    (registerFrameCount (runTrace
        {connectedEngine with registeredAddress := some "alice@example.com"}
        ([.regProceed 0, .regProceed 1] ++ [.frameRegisterFailed "slots_full"])).2 = 1 ∧
     settlesOf (runTrace
        {connectedEngine with registeredAddress := some "alice@example.com"}
        ([.regProceed 0, .regProceed 1] ++ [.frameRegisterFailed "slots_full"])).2 =
       [Settle.registerRejected 0 "Registration failed: slots_full",
        Settle.registerRejected 1 "Registration failed: slots_full"]) :=
  c3_register_amended
    {connectedEngine with registeredAddress := some "alice@example.com"}
    "alice@example.com" [.regProceed 0, .regProceed 1] "slots_full"
    rfl rfl rfl (by decide) (by decide)

end Trimphone
